import Mathlib

/-!
Verification of the vehicle position simulator of a fleet-tracking
application.  The subject code is the `POST` handler in
`src/app/api/simulate/route.ts` (the Simulation Scheduler: pace
computation, position advancement, ETA estimation, arrival handling)
and the `POST` handler in `src/app/api/sync-status/route.ts` (the
Status Reconciler).

JavaScript numbers are embedded as rationals (`ℚ`) in the executable
model; the trigonometric haversine distance, which JavaScript also
cannot evaluate exactly, is embedded over `ℝ` in a separate
non-computable section used for the ETA non-negativity property.
JavaScript truthiness of numbers (`x || d`, `x && x > 0`) and strings
is modelled explicitly where the source relies on it.
-/

/-! ## Pace computation (Position Advancer)

Faithful embedding of the per-vehicle pace computation inside the
`for` loop of `POST` in `src/app/api/simulate/route.ts`:

  let pointsPerUpdate
  if (route.duration && route.duration > 0) {
    const totalUpdates = route.duration / updateIntervalSeconds
    pointsPerUpdate = Math.max(1, Math.ceil(totalPoints / totalUpdates))
  } else {
    const distanceKm = (route.distance || 10000) / 1000
    const durationSeconds = (distanceKm / 30) * 3600
    const totalUpdates = durationSeconds / updateIntervalSeconds
    pointsPerUpdate = Math.max(1, Math.ceil(totalPoints / totalUpdates))
  }
  const variation = 0.8 + Math.random() * 0.4
  const actualPointsToMove = Math.max(1, Math.round(pointsPerUpdate * variation))
  const nextIndex = Math.min(currentIndex + actualPointsToMove, coordinates.length - 1)

with updateIntervalSeconds = 3.
-/

/-- JavaScript `x || dflt` on an optional number: `null`/`undefined` and `0`
are falsy, every other number is truthy. -/
def jsOrNum (o : Option ℚ) (dflt : ℚ) : ℚ :=
  match o with
  | some x => if x = 0 then dflt else x
  | none => dflt

/-- The `else` branch of the pace computation: 30 km/h fallback from the
route distance (default 10000 m), then the same ceiling formula. -/
def pointsPerUpdateFallback (totalPoints : ℕ) (distance : Option ℚ) : ℕ :=
  let distanceKm : ℚ := jsOrNum distance 10000 / 1000
  let durationSeconds : ℚ := distanceKm / 30 * 3600
  let totalUpdates : ℚ := durationSeconds / 3
  (max 1 ⌈(totalPoints : ℚ) / totalUpdates⌉).toNat

/-- The pace computation: `route.duration && route.duration > 0` is truthy
exactly when the duration is present and positive (a present duration of 0
is falsy, a negative one fails the comparison; both take the fallback). -/
def pointsPerUpdate (totalPoints : ℕ) (duration distance : Option ℚ) : ℕ :=
  match duration with
  | some d =>
      if 0 < d then (max 1 ⌈(totalPoints : ℚ) / (d / 3)⌉).toNat
      else pointsPerUpdateFallback totalPoints distance
  | none => pointsPerUpdateFallback totalPoints distance

/-- `Math.max(1, Math.round(pointsPerUpdate * variation))`; `Math.round`
rounds half away from zero upward, which is Mathlib's `round`. -/
def actualPointsToMove (p : ℕ) (variation : ℚ) : ℕ :=
  (max 1 (round ((p : ℚ) * variation))).toNat

/-- `Math.min(currentIndex + actualPointsToMove, coordinates.length - 1)`. -/
def nextIndexFn (totalPoints currentIndex : ℕ) (p : ℕ) (variation : ℚ) : ℕ :=
  min (currentIndex + actualPointsToMove p variation) (totalPoints - 1)

/-! ## Spec-side pace formula (for the refinement claim C5)

Modelled from the spec's words in §4.2: "if totalDurationSeconds is known
and > 0, pointsPerTick = ceil(len(points) / (totalDurationSeconds /
elapsedSeconds)), clamped to minimum 1. Else fall back to an assumed
average speed of 30 km/h: estimate totalDurationSeconds =
(totalDistanceMeters/1000 / 30) * 3600 (default total distance 10 km if
unknown), then apply step 1." -/

/-- Spec-side fallback: default distance 10 km when unknown. -/
def specPointsPerTickFallback (n : ℕ) (distance : Option ℚ) : ℕ :=
  let durationSeconds : ℚ := distance.getD 10000 / 1000 / 30 * 3600
  (max 1 ⌈(n : ℚ) / (durationSeconds / 3)⌉).toNat

/-- Spec-side pace formula of §4.2, elapsedSeconds = 3. -/
def specPointsPerTick (n : ℕ) (duration distance : Option ℚ) : ℕ :=
  match duration with
  | some d =>
      if 0 < d then (max 1 ⌈(n : ℚ) / (d / 3)⌉).toNat
      else specPointsPerTickFallback n distance
  | none => specPointsPerTickFallback n distance

/-! ## Data model

Row shapes of the store tables as used by the two handlers.  Timestamps
(ISO strings in the source) are modelled as rational instants; geographic
coordinates are `(longitude, latitude)` pairs as in the route geometry
`coordinates` field. -/

/-- Route geometry as consumed by the simulator: `coordinates` is `none`
when the field is missing or not an array (`!route.coordinates ||
!Array.isArray(route.coordinates)`); a present empty list is a present
array. -/
structure RouteGeometry where
  coordinates : Option (List (ℚ × ℚ))
  duration : Option ℚ
  distance : Option ℚ
deriving DecidableEq

/-- The stored `current_route` column: either a JSON string or an object.
For the string form the model carries the outcome of `JSON.parse`
(`none` when the parse throws, which the source catches and skips). -/
inductive RouteVal where
  | str (parsed : Option RouteGeometry)
  | obj (g : RouteGeometry)
deriving DecidableEq

structure Vehicle where
  id : String
  status : String
  tracking_mode : Option String
  latitude : Option ℚ
  longitude : Option ℚ
  current_route : Option RouteVal
  route_index : Option ℕ
  eta : Option ℚ
  last_location_update : Option ℚ
deriving DecidableEq

structure Shipment where
  id : String
  status : String
  vehicle_id : Option String
  driver_id : Option String
  delivered_at : Option ℚ
deriving DecidableEq

structure Driver where
  id : String
  status : String
deriving DecidableEq

structure Store where
  vehicles : List Vehicle
  shipments : List Shipment
  drivers : List Driver
deriving DecidableEq

/-- JavaScript truthiness of an optional string: `null`/`undefined` and the
empty string are falsy. -/
def jsTruthyStr (o : Option String) : Bool :=
  match o with
  | some s => s != ""
  | none => false

/-! ## Write operations

Each supabase `update(...).eq('id', x)` issued by the simulator tick is
one `WriteOp`; applying one updates every row whose id matches, as the
SQL filter does. -/

inductive WriteOp where
  /-- `shipments.update({status:'delivered', delivered_at: now})`. -/
  | shipmentDelivered (sid : String) (t : ℚ)
  /-- `drivers.update({status:'idle'})`. -/
  | driverIdle (did : String)
  /-- the arrival vehicle write: destination position, idle, route cleared. -/
  | vehicleArrive (vid : String) (lat lng : ℚ) (t : ℚ)
  /-- the en-route vehicle write: new position, index, eta. -/
  | vehicleMove (vid : String) (lat lng : ℚ) (idx : ℕ) (eta : ℚ) (t : ℚ)
deriving DecidableEq

/-- One entry of the `updates` array: the writes an update promise performed,
and whether it ended in a thrown exception (a rejected promise). -/
structure UpdateEntry where
  ops : List WriteOp
  threw : Bool
deriving DecidableEq

def applyOp (st : Store) (op : WriteOp) : Store :=
  match op with
  | .shipmentDelivered sid t =>
      { st with shipments := st.shipments.map (fun s =>
          if s.id = sid then { s with status := "delivered", delivered_at := some t } else s) }
  | .driverIdle did =>
      { st with drivers := st.drivers.map (fun d =>
          if d.id = did then { d with status := "idle" } else d) }
  | .vehicleArrive vid lat lng t =>
      { st with vehicles := st.vehicles.map (fun v =>
          if v.id = vid then
            { v with
              latitude := some lat, longitude := some lng, status := "idle",
              current_route := none, route_index := some 0, eta := none,
              last_location_update := some t }
          else v) }
  | .vehicleMove vid lat lng idx eta t =>
      { st with vehicles := st.vehicles.map (fun v =>
          if v.id = vid then
            { v with
              latitude := some lat, longitude := some lng, route_index := some idx,
              eta := some eta, last_location_update := some t }
          else v) }

def applyEntry (st : Store) (e : UpdateEntry) : Store := e.ops.foldl applyOp st

def applyEntries (st : Store) (es : List UpdateEntry) : Store := es.foldl applyEntry st

/-! ## The simulator tick (`POST` of `src/app/api/simulate/route.ts`) -/

/-- Sum of haversine distances over consecutive pairs, generic in the
distance function (the real-valued haversine is not exactly computable;
the tick model takes it as a parameter `hav lat1 lon1 lat2 lon2`). -/
def pairSumWith (hav : ℚ → ℚ → ℚ → ℚ → ℚ) : List (ℚ × ℚ) → ℚ
  | p :: q :: rest => hav p.2 p.1 q.2 q.1 + pairSumWith hav (q :: rest)
  | _ => 0

/-- `calculateRemainingDistance(coordinates, fromIndex)`: the loop from
`fromIndex` to the end sums exactly the consecutive distances of the
suffix starting at `fromIndex`. -/
def calcRemainingDistanceWith (hav : ℚ → ℚ → ℚ → ℚ → ℚ)
    (coords : List (ℚ × ℚ)) (fromIndex : ℕ) : ℚ :=
  pairSumWith hav (coords.drop fromIndex)

/-- The en-route ETA computation: `remainingRatio = (totalPoints -
nextIndex) / totalPoints`, duration-proportional when `route.duration`
is truthy and positive, otherwise the 30 km/h path-distance fallback. -/
def remainingTimeMsWith (hav : ℚ → ℚ → ℚ → ℚ → ℚ) (coords : List (ℚ × ℚ))
    (nextIndex : ℕ) (duration : Option ℚ) : ℚ :=
  let totalPoints := coords.length
  let remainingFrac : ℚ := ((totalPoints : ℚ) - (nextIndex : ℚ)) / (totalPoints : ℚ)
  match duration with
  | some d =>
      if 0 < d then d * remainingFrac * 1000
      else calcRemainingDistanceWith hav coords nextIndex / 30 * 3600 * 1000
  | none => calcRemainingDistanceWith hav coords nextIndex / 30 * 3600 * 1000

/-- `typeof current_route === 'string' ? JSON.parse(...) : current_route`,
with the parse failure (`continue`) surfaced as `none`. -/
def parsedRoute (rv : RouteVal) : Option RouteGeometry :=
  match rv with
  | .str p => p
  | .obj g => some g

/-- The shipment map lookup: `shipmentMap` is built by inserting every
fetched shipment with a truthy `vehicle_id` keyed by it (later inserts
overwrite), so `shipmentMap.get(vid)` is the last such shipment. -/
def shipmentFor (ships : List Shipment) (vid : String) : Option Shipment :=
  (ships.filter (fun s => jsTruthyStr s.vehicle_id && s.vehicle_id == some vid)).getLast?

/-- The tracking-mode filter of the tick:
`!v.tracking_mode || v.tracking_mode === 'simulated'` — an absent, null or
empty tracking mode is falsy and passes, as does the value `simulated`. -/
def simulatedFilter (v : Vehicle) : Bool :=
  !jsTruthyStr v.tracking_mode || v.tracking_mode == some "simulated"

/-- One iteration of the `for` loop over `simulatedVehicles`: `none` means
the iteration pushed no update (the `continue` cases, and the arrival
case with no owning shipment).  `variation` is the sampled multiplier
`0.8 + Math.random() * 0.4` of this iteration. -/
def processVehicle (findShip : String → Option Shipment) (hav : ℚ → ℚ → ℚ → ℚ → ℚ)
    (now : ℚ) (v : Vehicle) (variation : ℚ) : Option UpdateEntry :=
  let shipment := findShip v.id
  match v.current_route with
  | none => none
  | some rv =>
    match parsedRoute rv with
    | none => none
    | some route =>
      match route.coordinates with
      | none => none
      | some coords =>
        let currentIndex := v.route_index.getD 0
        let totalPoints := coords.length
        let p := pointsPerUpdate totalPoints route.duration route.distance
        let nextIndex := nextIndexFn totalPoints currentIndex p variation
        if totalPoints - 1 ≤ nextIndex then
          -- arrival branch: only acts when an owning shipment was found
          match shipment with
          | some s =>
            let shipOps := [WriteOp.shipmentDelivered s.id now]
            let drvOps := match s.driver_id with
              | some d => if d = "" then [] else [WriteOp.driverIdle d]
              | none => []
            -- `coordinates[coordinates.length - 1]` throws on an empty
            -- array, rejecting the promise after the shipment and driver
            -- writes already went through
            match coords.getLast? with
            | some pt =>
                some ⟨shipOps ++ drvOps ++ [WriteOp.vehicleArrive v.id pt.2 pt.1 now], false⟩
            | none => some ⟨shipOps ++ drvOps, true⟩
          | none => none
        else
          -- en-route branch; nextIndex < totalPoints - 1 so the access is
          -- in bounds and the default is never taken
          let pt := coords.getD nextIndex (0, 0)
          let eta := now + remainingTimeMsWith hav coords nextIndex route.duration
          some ⟨[WriteOp.vehicleMove v.id pt.2 pt.1 nextIndex eta now], false⟩

/-- The loop over `simulatedVehicles`; `var i` is the random multiplier of
the `i`-th examined vehicle. -/
def processList (findShip : String → Option Shipment) (hav : ℚ → ℚ → ℚ → ℚ → ℚ)
    (now : ℚ) (var : ℕ → ℚ) : ℕ → List Vehicle → List UpdateEntry
  | _, [] => []
  | i, v :: rest =>
    match processVehicle findShip hav now v (var i) with
    | some e => e :: processList findShip hav now var (i + 1) rest
    | none => processList findShip hav now var (i + 1) rest

/-- The handler's response value. -/
inductive TickResponse where
  /-- vehicles query error: status 500 with the store error message. -/
  | loadError (msg : String)
  /-- "No active vehicles to simulate", updated: 0. -/
  | noActive
  /-- "No simulated vehicles to update", updated: 0. -/
  | noSimulated
  /-- a rejected update promise made `Promise.all` throw: status 500. -/
  | internalError
  /-- success with the number of update promises issued. -/
  | ok (updated : ℕ)
deriving DecidableEq

/-- Result of a tick: the response and the update promises (whose writes
have all been issued by the time the handler returns, even when one of
them rejected). -/
structure TickOutcome where
  response : TickResponse
  entries : List UpdateEntry
deriving DecidableEq

/-- The whole `POST` handler of `src/app/api/simulate/route.ts`.

`vehErr` is the error of the vehicles query (checked by the source);
`shipErr` says whether the shipments query failed — its error object is
discarded by the source (`const { data: shipments } = await ...`), which
then iterates over a `null` result, leaving the shipment map empty.
`hav` stands for the haversine distance and `var` for the stream of
random pacing multipliers; `now` is the wall clock. -/
def runTick (store : Store) (vehErr : Option String) (shipErr : Bool)
    (hav : ℚ → ℚ → ℚ → ℚ → ℚ) (var : ℕ → ℚ) (now : ℚ) : TickOutcome :=
  match vehErr with
  | some e => ⟨.loadError e, []⟩
  | none =>
    let vehicles := store.vehicles.filter (fun v => v.status == "in_use")
    if vehicles.isEmpty then ⟨.noActive, []⟩
    else
      let simulatedVehicles := vehicles.filter simulatedFilter
      if simulatedVehicles.isEmpty then ⟨.noSimulated, []⟩
      else
        let vehicleIds := simulatedVehicles.map Vehicle.id
        let ships := if shipErr then []
          else store.shipments.filter (fun s =>
            s.status == "in_transit" &&
              (match s.vehicle_id with
               | some x => vehicleIds.contains x
               | none => false))
        let entries := processList (shipmentFor ships) hav now var 0 simulatedVehicles
        if entries.any UpdateEntry.threw then ⟨.internalError, entries⟩
        else ⟨.ok entries.length, entries⟩

/-! ## The Status Reconciler (`POST` of `src/app/api/sync-status/route.ts`) -/

/-- `.map(s => s.vehicle_id).filter(Boolean)`: drop nulls and empty
strings. -/
def truthyIds (os : List (Option String)) : List String :=
  os.filterMap (fun o =>
    match o with
    | some s => if s = "" then none else some s
    | none => none)

/-- `vehiclesToFix`: vehicles reported `in_use` whose id is in no
in-transit shipment's `vehicle_id`. -/
def reconcileVehiclesToFix (st : Store) : List Vehicle :=
  let inUseVehicles := st.vehicles.filter (fun v => v.status == "in_use")
  let activeShipments := st.shipments.filter (fun s => s.status == "in_transit")
  let activeVehicleIds := truthyIds (activeShipments.map Shipment.vehicle_id)
  inUseVehicles.filter (fun v => !activeVehicleIds.contains v.id)

/-- `driversToFix`: drivers reported `working` whose id is in no
in-transit shipment's `driver_id`. -/
def reconcileDriversToFix (st : Store) : List Driver :=
  let workingDrivers := st.drivers.filter (fun d => d.status == "working")
  let activeShipments := st.shipments.filter (fun s => s.status == "in_transit")
  let activeDriverIds := truthyIds (activeShipments.map Shipment.driver_id)
  workingDrivers.filter (fun d => !activeDriverIds.contains d.id)

/-- The store after the reconciliation writes: each vehicle to fix is set
idle with route, index and eta cleared; each driver to fix is set idle. -/
def reconcileApply (st : Store) : Store :=
  let vFix := (reconcileVehiclesToFix st).map Vehicle.id
  let dFix := (reconcileDriversToFix st).map Driver.id
  { st with
    vehicles := st.vehicles.map (fun v =>
      if vFix.contains v.id then
        { v with
          status := "idle", current_route := none, route_index := some 0, eta := none }
      else v),
    drivers := st.drivers.map (fun d =>
      if dFix.contains d.id then { d with status := "idle" } else d) }

/-- The `stats` counts of the response: `vehiclesFixed` and
`driversFixed`. -/
def reconcileCounts (st : Store) : ℕ × ℕ :=
  ((reconcileVehiclesToFix st).length, (reconcileDriversToFix st).length)

/-! ## Auxiliary observers -/

/-- The vehicle row a write targets, if it is a vehicle-table write. -/
def opVehicleTarget : WriteOp → Option String
  | .vehicleArrive vid _ _ _ => some vid
  | .vehicleMove vid _ _ _ _ _ => some vid
  | _ => none

/-- The shipment row a write targets, if it is a shipment-table write. -/
def opShipmentTarget : WriteOp → Option String
  | .shipmentDelivered sid _ => some sid
  | _ => none

/-- The driver row a write targets, if it is a driver-table write. -/
def opDriverTarget : WriteOp → Option String
  | .driverIdle did => some did
  | _ => none

/-- Repeated application of the Position Advancer: `advanceIter n p var c k`
advances `k` ticks from index `c` on an `n`-point route, consuming the
multiplier stream `var` one value per tick. -/
def advanceIter (totalPoints p : ℕ) (var : ℕ → ℚ) : ℕ → ℕ → ℕ
  | c, 0 => c
  | c, k + 1 =>
      advanceIter totalPoints p (fun i => var (i + 1))
        (nextIndexFn totalPoints c p (var 0)) k

/-! ## Real-valued ETA model

The ETA fallback path sums haversine distances, which use `Math.sin`,
`Math.cos`, `Math.sqrt` and `Math.atan2`; these are embedded over `ℝ`
(non-computable) here, mirroring `haversineDistance`,
`calculateRemainingDistance` and the en-route ETA computation of the
source exactly. -/

/-- `Math.atan2 y x` as the argument of the complex number `x + y i`. -/
noncomputable def mathAtan2 (y x : ℝ) : ℝ := Complex.arg ⟨x, y⟩

/-- `haversineDistance(lat1, lon1, lat2, lon2)`: great-circle distance in
km, Earth radius 6371 km. -/
noncomputable def haversineDistance (lat1 lon1 lat2 lon2 : ℝ) : ℝ :=
  let R : ℝ := 6371
  let dLat := (lat2 - lat1) * Real.pi / 180
  let dLon := (lon2 - lon1) * Real.pi / 180
  let a := Real.sin (dLat / 2) * Real.sin (dLat / 2) +
    Real.cos (lat1 * Real.pi / 180) * Real.cos (lat2 * Real.pi / 180) *
      Real.sin (dLon / 2) * Real.sin (dLon / 2)
  let c := 2 * mathAtan2 (Real.sqrt a) (Real.sqrt (1 - a))
  R * c

/-- Consecutive-pair haversine sum over real coordinates. -/
noncomputable def pairSumReal : List (ℝ × ℝ) → ℝ
  | p :: q :: rest => haversineDistance p.2 p.1 q.2 q.1 + pairSumReal (q :: rest)
  | _ => 0

/-- `calculateRemainingDistance(coordinates, fromIndex)` over `ℝ`. -/
noncomputable def calculateRemainingDistance (coords : List (ℝ × ℝ)) (fromIndex : ℕ) : ℝ :=
  pairSumReal (coords.drop fromIndex)

open Classical in
/-- The en-route ETA remaining time (milliseconds) over `ℝ`:
duration-proportional when the duration is truthy and positive, otherwise
the 30 km/h haversine path-distance fallback. -/
noncomputable def remainingTimeMs (coords : List (ℝ × ℝ)) (nextIndex : ℕ)
    (duration : Option ℝ) : ℝ :=
  let totalPoints := coords.length
  let remainingFrac : ℝ := ((totalPoints : ℝ) - (nextIndex : ℝ)) / (totalPoints : ℝ)
  match duration with
  | some d =>
      if 0 < d then d * remainingFrac * 1000
      else calculateRemainingDistance coords nextIndex / 30 * 3600 * 1000
  | none => calculateRemainingDistance coords nextIndex / 30 * 3600 * 1000

/-- `new Date(Date.now() + remainingTimeMs)`: the ETA Estimator's output. -/
noncomputable def newEta (now : ℝ) (coords : List (ℝ × ℝ)) (nextIndex : ℕ)
    (duration : Option ℝ) : ℝ :=
  now + remainingTimeMs coords nextIndex duration

/-! ## Concrete stores for the counterexamples and witnesses -/

/-- A trivial stand-in for the haversine parameter where its value is
irrelevant. -/
def hav0 : ℚ → ℚ → ℚ → ℚ → ℚ := fun _ _ _ _ => 0

/-- A multiplier stream pinned at 1 (`Math.random() = 0.5`). -/
def var1 : ℕ → ℚ := fun _ => 1

/-- C1 scenario: an in-use simulated vehicle one tick from the end of a
2-point route, with no in-transit shipment referencing it. -/
def c1Store : Store :=
  { vehicles := [⟨"v1", "in_use", none, some 0, some 0,
      some (RouteVal.obj ⟨some [(0, 0), (0, 1)], some 300, none⟩),
      some 0, none, none⟩],
    shipments := [],
    drivers := [] }

/-- C2 scenario: an in-use simulated vehicle mid-route with an in-transit
shipment and a working driver; the shipments query fails. -/
def c2Store : Store :=
  { vehicles := [⟨"v1", "in_use", some "simulated", some 0, some 0,
      some (RouteVal.obj ⟨some [(0, 0), (0, 1), (0, 2)], some 30, none⟩),
      some 0, none, none⟩],
    shipments := [⟨"s1", "in_transit", some "v1", some "d1", none⟩],
    drivers := [⟨"d1", "working"⟩] }

/-- C3 scenario: an in-use simulated vehicle whose route has a present but
empty coordinate array, with an owning in-transit shipment. -/
def c3Store : Store :=
  { vehicles := [⟨"v1", "in_use", some "simulated", some 0, some 0,
      some (RouteVal.obj ⟨some [], some 300, none⟩),
      some 0, none, none⟩],
    shipments := [⟨"s1", "in_transit", some "v1", some "d1", none⟩],
    drivers := [⟨"d1", "working"⟩] }

/-- C4 scenario: one live-mode vehicle and one simulated vehicle, both in
use, each with an in-transit shipment. -/
def c4Store : Store :=
  { vehicles := [
      ⟨"v1", "in_use", some "live", some 0, some 0,
        some (RouteVal.obj ⟨some [(0, 0), (0, 1), (0, 2)], some 30, none⟩),
        some 0, none, none⟩,
      ⟨"v2", "in_use", some "simulated", some 0, some 0,
        some (RouteVal.obj ⟨some [(0, 0), (0, 1), (0, 2)], some 30, none⟩),
        some 0, none, none⟩],
    shipments := [⟨"s1", "in_transit", some "v1", some "d1", none⟩,
      ⟨"s2", "in_transit", some "v2", some "d2", none⟩],
    drivers := [⟨"d1", "working"⟩, ⟨"d2", "working"⟩] }

/-- A vehicle whose stored route is an unparseable JSON string. -/
def badRouteVehicle : Vehicle :=
  ⟨"v1", "in_use", some "simulated", some 0, some 0,
    some (RouteVal.str none), some 0, none, none⟩

/-- An in-use vehicle with absent tracking mode on a 2-point route. -/
def noModeVehicle : Vehicle :=
  ⟨"v1", "in_use", none, some 0, some 0,
    some (RouteVal.obj ⟨some [(0, 0), (0, 1)], some 300, none⟩),
    some 0, none, none⟩

/-! ## Theorems -/

/-- The adjusted advance amount is always at least one point. -/
theorem actualPointsToMove_pos (p : ℕ) (v : ℚ) : 1 ≤ actualPointsToMove p v := by
  unfold actualPointsToMove
  have h : (1 : ℤ) ≤ max 1 (round ((p : ℚ) * v)) := le_max_left _ _
  omega

/-- Claim C5: the Position Advancer's pace computation equals the spec's
formula — with duration known and positive, `max 1 ⌈n / (dur / 3)⌉`;
otherwise the 30 km/h fallback on the (default 10 km) distance — and in
particular a 100-point route with duration 300 s gives one point per tick
before the random variation.  (The code reads the distance through
JavaScript `||`, so a present distance of exactly 0 also takes the 10 km
default; the spec's formula is undefined there, hence the `dist ≠ some 0`
hypothesis.) -/
theorem C5_pace_formula :
    (∀ (n : ℕ) (dur dist : Option ℚ), dist ≠ some 0 →
      pointsPerUpdate n dur dist = specPointsPerTick n dur dist) ∧
    pointsPerUpdate 100 (some 300) none = 1 := by
  constructor
  · intro n dur dist hdist
    have hfb : pointsPerUpdateFallback n dist = specPointsPerTickFallback n dist := by
      unfold pointsPerUpdateFallback specPointsPerTickFallback jsOrNum
      cases dist with
      | none => norm_num
      | some x =>
          have hx : x ≠ 0 := fun h => hdist (by rw [h])
          simp only [hx, if_false, Option.getD_some]
    cases dur with
    | none => simpa [pointsPerUpdate, specPointsPerTick] using hfb
    | some d =>
        by_cases hd : 0 < d
        · simp [pointsPerUpdate, specPointsPerTick, hd]
        · simpa [pointsPerUpdate, specPointsPerTick, hd] using hfb
  · norm_num [pointsPerUpdate]

/-- Witness for C5 at concrete inputs (duration absent, distance 9000 m). -/
theorem C5_pace_formula_witness :
    pointsPerUpdate 5 none (some 9000) = specPointsPerTick 5 none (some 9000) :=
  C5_pace_formula.1 5 none (some 9000) (by simp)

/-- Claim C6: monotonic progress — for any route point list of length at
least 2, any current index at most `len - 1`, and any random pacing
multiplier in [0.8, 1.2], the advanced index satisfies
`currentIndex ≤ nextIndex ≤ len - 1`. -/
theorem C6_monotonic_progress (coords : List (ℚ × ℚ)) (c p : ℕ) (v : ℚ)
    (hn : 2 ≤ coords.length) (hc : c ≤ coords.length - 1)
    (hv1 : (4 / 5 : ℚ) ≤ v) (hv2 : v ≤ 6 / 5) :
    c ≤ nextIndexFn coords.length c p v ∧
      nextIndexFn coords.length c p v ≤ coords.length - 1 := by
  unfold nextIndexFn
  exact ⟨le_min (Nat.le_add_right _ _) hc, min_le_right _ _⟩

/-- Witness for C6 at a concrete 3-point route, index 1, multiplier 1. -/
theorem C6_monotonic_progress_witness :
    1 ≤ nextIndexFn ([((0 : ℚ), (0 : ℚ)), (0, 1), (0, 2)] : List (ℚ × ℚ)).length 1 1 1 ∧
      nextIndexFn ([((0 : ℚ), (0 : ℚ)), (0, 1), (0, 2)] : List (ℚ × ℚ)).length 1 1 1 ≤
        ([((0 : ℚ), (0 : ℚ)), (0, 1), (0, 2)] : List (ℚ × ℚ)).length - 1 :=
  C6_monotonic_progress _ 1 1 1 (by decide) (by decide) (by norm_num) (by norm_num)

/-- The haversine distance is non-negative: it is `6371 * 2 * atan2 (sqrt a)
(sqrt (1 - a))` and the atan2 of a point with non-negative second component
is in `[0, π]`. -/
theorem haversineDistance_nonneg (lat1 lon1 lat2 lon2 : ℝ) :
    0 ≤ haversineDistance lat1 lon1 lat2 lon2 := by
  simp only [haversineDistance]
  refine mul_nonneg (by norm_num) (mul_nonneg (by norm_num) ?_)
  exact Complex.arg_nonneg_iff.mpr (Real.sqrt_nonneg _)

/-- A sum of haversine distances over consecutive pairs is non-negative. -/
theorem pairSumReal_nonneg : ∀ l : List (ℝ × ℝ), 0 ≤ pairSumReal l := by
  intro l
  induction l with
  | nil => simp [pairSumReal]
  | cons p tail ih =>
      cases tail with
      | nil => simp [pairSumReal]
      | cons q rest =>
          simp only [pairSumReal]
          exact add_nonneg (haversineDistance_nonneg _ _ _ _) ih

/-- The remaining path distance is non-negative. -/
theorem calculateRemainingDistance_nonneg (coords : List (ℝ × ℝ)) (i : ℕ) :
    0 ≤ calculateRemainingDistance coords i :=
  pairSumReal_nonneg (coords.drop i)

/-- Claim C7: ETA non-negativity — for a route of length at least 2 and any
advanced index at most `len - 1`, the ETA Estimator's output is never
before `now`, in both the duration-proportional branch and the 30 km/h
path-distance fallback. -/
theorem C7_eta_nonneg (coords : List (ℝ × ℝ)) (ni : ℕ) (dur : Option ℝ) (now : ℝ)
    (hn : 2 ≤ coords.length) (hni : ni ≤ coords.length - 1) :
    now ≤ newEta now coords ni dur := by
  have hfrac : 0 ≤ ((coords.length : ℝ) - (ni : ℝ)) / (coords.length : ℝ) := by
    have hle : ni ≤ coords.length := by omega
    have hle' : (ni : ℝ) ≤ (coords.length : ℝ) := by exact_mod_cast hle
    apply div_nonneg (by linarith)
    positivity
  have hfall : 0 ≤ calculateRemainingDistance coords ni / 30 * 3600 * 1000 := by
    have h := calculateRemainingDistance_nonneg coords ni
    have h1 : 0 ≤ calculateRemainingDistance coords ni / 30 := by linarith
    nlinarith
  have hrtm : 0 ≤ remainingTimeMs coords ni dur := by
    simp only [remainingTimeMs]
    cases dur with
    | none => exact hfall
    | some d =>
        by_cases hd : 0 < d
        · simp only [hd, if_true]
          have : 0 ≤ d * (((coords.length : ℝ) - (ni : ℝ)) / (coords.length : ℝ)) :=
            mul_nonneg hd.le hfrac
          nlinarith
        · simp only [hd, if_false]
          exact hfall
  simp only [newEta]
  linarith

/-- Witness for C7 at a concrete 2-point route, index 1, no duration. -/
theorem C7_eta_nonneg_witness :
    (0 : ℝ) ≤ newEta 0 [((0 : ℝ), (0 : ℝ)), (0, 1)] 1 none :=
  C7_eta_nonneg _ 1 none 0 (by norm_num) (by norm_num)

/-- Bounds of the iterated advancer: after `k` ticks from `c ≤ n - 1` the
index is at least `min (c + k) (n - 1)` (the advance amount is at least 1
per tick) and at most `n - 1`. -/
theorem advanceIter_bounds (n p : ℕ) :
    ∀ (k : ℕ) (var : ℕ → ℚ) (c : ℕ), c ≤ n - 1 →
      min (c + k) (n - 1) ≤ advanceIter n p var c k ∧
        advanceIter n p var c k ≤ n - 1 := by
  intro k
  induction k with
  | zero =>
      intro var c hc
      simp only [advanceIter]
      omega
  | succ k ih =>
      intro var c hc
      simp only [advanceIter]
      have ha : 1 ≤ actualPointsToMove p (var 0) := actualPointsToMove_pos p (var 0)
      have hc' : nextIndexFn n c p (var 0) ≤ n - 1 := min_le_right _ _
      obtain ⟨h1, h2⟩ := ih (fun i => var (i + 1)) (nextIndexFn n c p (var 0)) hc'
      refine ⟨le_trans ?_ h1, h2⟩
      unfold nextIndexFn
      unfold nextIndexFn at h1
      omega

/-- Claim C8: bounded arrival — from any index strictly before the end and
any multiplier stream in [0.8, 1.2], finitely many ticks reach the last
index. -/
theorem C8_bounded_arrival (coords : List (ℚ × ℚ)) (p c : ℕ) (var : ℕ → ℚ)
    (hn : 2 ≤ coords.length) (hc : c < coords.length - 1)
    (hv : ∀ i, (4 / 5 : ℚ) ≤ var i ∧ var i ≤ 6 / 5) :
    ∃ k, advanceIter coords.length p var c k = coords.length - 1 := by
  refine ⟨coords.length - 1 - c, ?_⟩
  obtain ⟨h1, h2⟩ :=
    advanceIter_bounds coords.length p (coords.length - 1 - c) var c (by omega)
  omega

/-- Witness for C8 at a concrete 3-point route from index 0. -/
theorem C8_bounded_arrival_witness :
    ∃ k, advanceIter ([((0 : ℚ), (0 : ℚ)), (0, 1), (0, 2)] : List (ℚ × ℚ)).length 1 var1 0 k =
      ([((0 : ℚ), (0 : ℚ)), (0, 1), (0, 2)] : List (ℚ × ℚ)).length - 1 :=
  C8_bounded_arrival _ 1 0 var1 (by decide) (by decide)
    (fun _ => by constructor <;> norm_num [var1])

/-- Claim C10: an in-use vehicle whose tracking_mode is absent passes the
tracking-mode filter and every step of the per-vehicle processing treats
it exactly as if its tracking mode were `simulated`. -/
theorem C10_absent_mode_simulated (v : Vehicle) (h : v.tracking_mode = none) :
    simulatedFilter v = true ∧
    ∀ (fs : String → Option Shipment) (hav : ℚ → ℚ → ℚ → ℚ → ℚ) (now varVal : ℚ),
      processVehicle fs hav now v varVal =
        processVehicle fs hav now { v with tracking_mode := some "simulated" } varVal := by
  refine ⟨by simp [simulatedFilter, jsTruthyStr, h], ?_⟩
  intro fs hav now varVal
  rfl

/-- Witness for C10 at a concrete in-use vehicle with absent tracking mode. -/
theorem C10_absent_mode_simulated_witness :
    simulatedFilter noModeVehicle = true ∧
    ∀ (fs : String → Option Shipment) (hav : ℚ → ℚ → ℚ → ℚ → ℚ) (now varVal : ℚ),
      processVehicle fs hav now noModeVehicle varVal =
        processVehicle fs hav now { noModeVehicle with tracking_mode := some "simulated" } varVal :=
  C10_absent_mode_simulated noModeVehicle rfl

/-- Claim C1, amended: when the advanced index reaches the route end but no
in-transit shipment references the vehicle, the tick issues no write at
all for that vehicle — it is left `in_use` with its route intact (the
source's arrival block is guarded by `if (shipment)` with no else), and
recovery is left to the Status Reconciler. -/
theorem C1_no_shipment_no_release (fs : String → Option Shipment)
    (hav : ℚ → ℚ → ℚ → ℚ → ℚ) (now : ℚ) (v : Vehicle) (varVal : ℚ)
    (rv : RouteVal) (g : RouteGeometry) (coords : List (ℚ × ℚ))
    (hroute : v.current_route = some rv) (hg : parsedRoute rv = some g)
    (hcoords : g.coordinates = some coords)
    (hship : fs v.id = none)
    (harr : coords.length - 1 ≤
      nextIndexFn coords.length (v.route_index.getD 0)
        (pointsPerUpdate coords.length g.duration g.distance) varVal) :
    processVehicle fs hav now v varVal = none := by
  simp [processVehicle, hroute, hg, hcoords, hship, harr]

/-- Witness for the amended C1 at the concrete C1 scenario vehicle. -/
theorem C1_no_shipment_no_release_witness :
    processVehicle (fun _ => none) hav0 0
      ⟨"v1", "in_use", none, some 0, some 0,
        some (RouteVal.obj ⟨some [(0, 0), (0, 1)], some 300, none⟩),
        some 0, none, none⟩ 1 = none :=
  C1_no_shipment_no_release _ _ _ _ _ _ _ _ rfl rfl rfl rfl
    (by norm_num [nextIndexFn, actualPointsToMove, pointsPerUpdate])

/-- When the route has at most as many points as remaining ticks
(`n ≤ d / 3`), the pace computation yields exactly one point per tick. -/
theorem pointsPerUpdate_eq_one (n : ℕ) (d : ℚ) (dist : Option ℚ) (hd : 0 < d)
    (hn : (n : ℚ) ≤ d / 3) : pointsPerUpdate n (some d) dist = 1 := by
  unfold pointsPerUpdate
  simp only [hd, if_true]
  have h1 : ⌈(n : ℚ) / (d / 3)⌉ ≤ 1 := by
    apply Int.ceil_le.mpr
    push_cast
    rw [div_le_one (by positivity)]
    exact hn
  omega

/-- Counterexample to claim C1: in the C1 scenario the vehicle's advanced
index reaches the route end (last conjunct) and no in-transit shipment
references it, yet the tick issues no write: the store is unchanged and
the vehicle is still `in_use` with its route present — it is not released
to idle. -/
theorem C1_counterexample :
    runTick c1Store none false hav0 var1 0 = ⟨TickResponse.ok 0, []⟩ ∧
    applyEntries c1Store (runTick c1Store none false hav0 var1 0).entries = c1Store ∧
    c1Store.vehicles.map Vehicle.status = ["in_use"] ∧
    c1Store.vehicles.map Vehicle.current_route ≠ [none] ∧
    nextIndexFn 2 0 (pointsPerUpdate 2 (some 300) none) (var1 0) = 2 - 1 := by
  have hp : pointsPerUpdate 2 (some 300) none = 1 :=
    pointsPerUpdate_eq_one 2 300 none (by norm_num) (by norm_num)
  have ha : actualPointsToMove 1 1 = 1 := by norm_num [actualPointsToMove]
  refine ⟨?_, ?_, by simp [c1Store], by simp [c1Store], ?_⟩
  · simp [runTick, c1Store, processList, processVehicle, parsedRoute, shipmentFor,
      nextIndexFn, hp, ha, jsTruthyStr, simulatedFilter, var1, hav0]
  · simp [runTick, c1Store, processList, processVehicle, parsedRoute, shipmentFor,
      nextIndexFn, hp, ha, jsTruthyStr, simulatedFilter, var1, hav0,
      applyEntries, applyEntry]
  · simp [nextIndexFn, hp, ha, var1]

/-- Claim C2, amended: a failure of the vehicles batch load aborts the tick
with the store error and no writes; but a failure of the shipments batch
load is silently discarded (the handler never reads that query's error),
and the tick proceeds exactly as if there were no in-transit shipments. -/
theorem C2_load_failure_semantics :
    (∀ (store : Store) (e : String) (shipErr : Bool) (hav : ℚ → ℚ → ℚ → ℚ → ℚ)
        (var : ℕ → ℚ) (now : ℚ),
      runTick store (some e) shipErr hav var now = ⟨TickResponse.loadError e, []⟩) ∧
    (∀ (store : Store) (hav : ℚ → ℚ → ℚ → ℚ → ℚ) (var : ℕ → ℚ) (now : ℚ),
      runTick store none true hav var now =
        runTick { store with shipments := [] } none false hav var now) := by
  constructor
  · intros; rfl
  · intros; rfl

/-- Counterexample to claim C2: in the C2 scenario the shipments batch load
fails, yet the tick does not abort — it reports one vehicle updated and
mutates the vehicle's route index from 0 to 1. -/
theorem C2_counterexample :
    (runTick c2Store none true hav0 var1 0).response = TickResponse.ok 1 ∧
    (applyEntries c2Store (runTick c2Store none true hav0 var1 0).entries).vehicles.map
      Vehicle.route_index = [some 1] ∧
    c2Store.vehicles.map Vehicle.route_index = [some 0] := by
  have hp : pointsPerUpdate 3 (some 30) none = 1 :=
    pointsPerUpdate_eq_one 3 30 none (by norm_num) (by norm_num)
  have ha : actualPointsToMove 1 1 = 1 := by norm_num [actualPointsToMove]
  refine ⟨?_, ?_, by simp [c2Store]⟩
  · simp [runTick, c2Store, processList, processVehicle, parsedRoute, shipmentFor,
      nextIndexFn, hp, ha, jsTruthyStr, simulatedFilter, var1, hav0]
  · simp [runTick, c2Store, processList, processVehicle, parsedRoute, shipmentFor,
      nextIndexFn, hp, ha, jsTruthyStr, simulatedFilter, var1, hav0,
      applyEntries, applyEntry, applyOp]

/-- Claim C3, amended: a vehicle whose stored route is an unparseable JSON
string, or parses to a value with a missing or non-array `coordinates`
field, is skipped for the tick with no writes and no tick-level failure;
an empty or one-point coordinate array, however, is not validated (see the
counterexample). -/
theorem C3_malformed_route_skipped (fs : String → Option Shipment)
    (hav : ℚ → ℚ → ℚ → ℚ → ℚ) (now : ℚ) (v : Vehicle) (varVal : ℚ) (rv : RouteVal)
    (hroute : v.current_route = some rv)
    (hbad : parsedRoute rv = none ∨ ∃ g, parsedRoute rv = some g ∧ g.coordinates = none) :
    processVehicle fs hav now v varVal = none := by
  rcases hbad with h | ⟨g, hg, hc⟩
  · simp [processVehicle, hroute, h]
  · simp [processVehicle, hroute, hg, hc]

/-- Witness for the amended C3 at a vehicle with an unparseable route. -/
theorem C3_malformed_route_skipped_witness :
    processVehicle (fun _ => none) hav0 0 badRouteVehicle 1 = none :=
  C3_malformed_route_skipped _ _ _ _ _ (RouteVal.str none) rfl (Or.inl rfl)

/-- Counterexample to claim C3: in the C3 scenario the route's coordinate
array is present but empty — malformed per the claim — yet the vehicle is
not skipped: the tick writes the shipment delivered and the driver idle,
then the vehicle write throws on the missing last coordinate, rejecting
the promise and escalating the tick to an internal error. -/
theorem C3_counterexample :
    (runTick c3Store none false hav0 var1 0).response = TickResponse.internalError ∧
    (runTick c3Store none false hav0 var1 0).entries =
      [⟨[WriteOp.shipmentDelivered "s1" 0, WriteOp.driverIdle "d1"], true⟩] := by
  have hp : pointsPerUpdate 0 (some 300) none = 1 :=
    pointsPerUpdate_eq_one 0 300 none (by norm_num) (by norm_num)
  have ha : actualPointsToMove 1 1 = 1 := by norm_num [actualPointsToMove]
  constructor <;>
    simp [runTick, c3Store, processList, processVehicle, parsedRoute, shipmentFor,
      nextIndexFn, hp, ha, jsTruthyStr, simulatedFilter, var1, hav0]

/-- Every vehicle-table write produced by one loop iteration targets the
processed vehicle's own id. -/
theorem processVehicle_target (fs : String → Option Shipment) (hav : ℚ → ℚ → ℚ → ℚ → ℚ)
    (now : ℚ) (v : Vehicle) (varVal : ℚ) (e : UpdateEntry)
    (h : processVehicle fs hav now v varVal = some e) :
    ∀ op ∈ e.ops, ∀ u, opVehicleTarget op = some u → u = v.id := by
  intro op hop u hu
  simp only [processVehicle] at h
  repeat' split at h
  all_goals try exact Option.noConfusion h
  all_goals obtain rfl := Option.some.inj h
  all_goals simp only [List.cons_append, List.nil_append, List.mem_append,
    List.mem_cons, List.not_mem_nil, or_false, false_or, List.mem_singleton] at hop
  all_goals first
    | (rcases hop with rfl | rfl | rfl <;> simp [opVehicleTarget] at hu <;> exact hu.symm)
    | (rcases hop with rfl | rfl <;> simp [opVehicleTarget] at hu <;> exact hu.symm)
    | (rcases hop with rfl <;> simp [opVehicleTarget] at hu <;> exact hu.symm)
    | (subst hop; simp [opVehicleTarget] at hu; exact hu.symm)

/-- Every vehicle-table write of a tick's update entries targets one of the
processed vehicles. -/
theorem processList_target (fs : String → Option Shipment) (hav : ℚ → ℚ → ℚ → ℚ → ℚ)
    (now : ℚ) (var : ℕ → ℚ) :
    ∀ (vs : List Vehicle) (i : ℕ) (e : UpdateEntry),
      e ∈ processList fs hav now var i vs →
      ∀ op ∈ e.ops, ∀ u, opVehicleTarget op = some u → ∃ w ∈ vs, w.id = u := by
  intro vs
  induction vs with
  | nil => intro i e he; simp [processList] at he
  | cons w rest ih =>
      intro i e he op hop u hu
      simp only [processList] at he
      rcases hpv : processVehicle fs hav now w (var i) with _ | e'
      · rw [hpv] at he
        obtain ⟨w', hw', hid⟩ := ih (i + 1) e he op hop u hu
        exact ⟨w', List.mem_cons_of_mem _ hw', hid⟩
      · rw [hpv] at he
        rcases List.mem_cons.mp he with rfl | he'
        · exact ⟨w, List.mem_cons_self _ _,
            (processVehicle_target fs hav now w (var i) e hpv op hop u hu).symm⟩
        · obtain ⟨w', hw', hid⟩ := ih (i + 1) e he' op hop u hu
          exact ⟨w', List.mem_cons_of_mem _ hw', hid⟩

/-- A write that does not target a vehicle's row leaves that row in the
store. -/
theorem applyOp_vehicle_mem (st : Store) (op : WriteOp) (v : Vehicle)
    (hv : v ∈ st.vehicles) (h : opVehicleTarget op ≠ some v.id) :
    v ∈ (applyOp st op).vehicles := by
  cases op with
  | shipmentDelivered sid t => exact hv
  | driverIdle did => exact hv
  | vehicleArrive vid lat lng t =>
      simp only [applyOp]
      refine List.mem_map.mpr ⟨v, hv, ?_⟩
      have hne : ¬v.id = vid := fun hh => h (by simp [opVehicleTarget, hh])
      simp [hne]
  | vehicleMove vid lat lng idx eta t =>
      simp only [applyOp]
      refine List.mem_map.mpr ⟨v, hv, ?_⟩
      have hne : ¬v.id = vid := fun hh => h (by simp [opVehicleTarget, hh])
      simp [hne]

/-- Folding writes that never target a vehicle's row keeps the row. -/
theorem foldl_applyOp_vehicle_mem (ops : List WriteOp) (st : Store) (v : Vehicle)
    (hv : v ∈ st.vehicles) (h : ∀ op ∈ ops, opVehicleTarget op ≠ some v.id) :
    v ∈ (ops.foldl applyOp st).vehicles := by
  induction ops generalizing st with
  | nil => exact hv
  | cons o os ih =>
      exact ih (applyOp st o)
        (applyOp_vehicle_mem st o v hv (h o (List.mem_cons_self _ _)))
        (fun op hop => h op (List.mem_cons_of_mem _ hop))

/-- Applying update entries none of whose writes target a vehicle's row
keeps the row. -/
theorem applyEntries_vehicle_mem (es : List UpdateEntry) (st : Store) (v : Vehicle)
    (hv : v ∈ st.vehicles)
    (h : ∀ e ∈ es, ∀ op ∈ e.ops, opVehicleTarget op ≠ some v.id) :
    v ∈ (applyEntries st es).vehicles := by
  induction es generalizing st with
  | nil => exact hv
  | cons e rest ih =>
      exact ih (applyEntry st e)
        (foldl_applyOp_vehicle_mem e.ops st v hv (h e (List.mem_cons_self _ _)))
        (fun e' he' => h e' (List.mem_cons_of_mem _ he'))

/-- Every write of one loop iteration's update entry is one of: the
delivered-write of the shipment the lookup found for this vehicle, the
idle-write of that shipment's (truthy) driver, or a vehicle write of this
vehicle's own row. -/
theorem processVehicle_ops_chars (fs : String → Option Shipment) (hav : ℚ → ℚ → ℚ → ℚ → ℚ)
    (now : ℚ) (v : Vehicle) (varVal : ℚ) (e : UpdateEntry)
    (h : processVehicle fs hav now v varVal = some e) :
    ∀ op ∈ e.ops,
      (∃ s, fs v.id = some s ∧ op = WriteOp.shipmentDelivered s.id now) ∨
      (∃ s d, fs v.id = some s ∧ s.driver_id = some d ∧ op = WriteOp.driverIdle d) ∨
      (∃ lat lng, op = WriteOp.vehicleArrive v.id lat lng now) ∨
      (∃ lat lng i et, op = WriteOp.vehicleMove v.id lat lng i et now) := by
  intro op hop
  simp only [processVehicle] at h
  repeat' split at h
  all_goals try exact Option.noConfusion h
  all_goals obtain rfl := Option.some.inj h
  all_goals simp only [List.cons_append, List.nil_append, List.mem_append,
    List.mem_cons, List.not_mem_nil, or_false, false_or, List.mem_singleton] at hop
  all_goals first
    | (rcases hop with rfl | rfl | rfl <;>
        first
          | exact Or.inl ⟨_, by assumption, rfl⟩
          | exact Or.inr (Or.inl ⟨_, _, by assumption, by assumption, rfl⟩)
          | exact Or.inr (Or.inr (Or.inl ⟨_, _, rfl⟩))
          | exact Or.inr (Or.inr (Or.inr ⟨_, _, _, _, rfl⟩)))
    | (rcases hop with rfl | rfl <;>
        first
          | exact Or.inl ⟨_, by assumption, rfl⟩
          | exact Or.inr (Or.inl ⟨_, _, by assumption, by assumption, rfl⟩)
          | exact Or.inr (Or.inr (Or.inl ⟨_, _, rfl⟩))
          | exact Or.inr (Or.inr (Or.inr ⟨_, _, _, _, rfl⟩)))
    | (rcases hop with rfl <;>
        first
          | exact Or.inl ⟨_, by assumption, rfl⟩
          | exact Or.inr (Or.inl ⟨_, _, by assumption, by assumption, rfl⟩)
          | exact Or.inr (Or.inr (Or.inl ⟨_, _, rfl⟩))
          | exact Or.inr (Or.inr (Or.inr ⟨_, _, _, _, rfl⟩)))
    | (subst hop
       first
          | exact Or.inl ⟨_, by assumption, rfl⟩
          | exact Or.inr (Or.inl ⟨_, _, by assumption, by assumption, rfl⟩)
          | exact Or.inr (Or.inr (Or.inl ⟨_, _, rfl⟩))
          | exact Or.inr (Or.inr (Or.inr ⟨_, _, _, _, rfl⟩)))

/-- Lifting of the per-iteration write characterization to the loop over
all simulated vehicles. -/
theorem processList_ops_chars (fs : String → Option Shipment) (hav : ℚ → ℚ → ℚ → ℚ → ℚ)
    (now : ℚ) (var : ℕ → ℚ) :
    ∀ (vs : List Vehicle) (i : ℕ) (e : UpdateEntry),
      e ∈ processList fs hav now var i vs → ∀ op ∈ e.ops,
      ∃ w ∈ vs,
        (∃ s, fs w.id = some s ∧ op = WriteOp.shipmentDelivered s.id now) ∨
        (∃ s d, fs w.id = some s ∧ s.driver_id = some d ∧ op = WriteOp.driverIdle d) ∨
        (∃ lat lng, op = WriteOp.vehicleArrive w.id lat lng now) ∨
        (∃ lat lng i2 et, op = WriteOp.vehicleMove w.id lat lng i2 et now) := by
  intro vs
  induction vs with
  | nil => intro i e he; simp [processList] at he
  | cons w rest ih =>
      intro i e he op hop
      simp only [processList] at he
      rcases hpv : processVehicle fs hav now w (var i) with _ | e'
      · rw [hpv] at he
        obtain ⟨w', hw', hc⟩ := ih (i + 1) e he op hop
        exact ⟨w', List.mem_cons_of_mem _ hw', hc⟩
      · rw [hpv] at he
        rcases List.mem_cons.mp he with rfl | he'
        · exact ⟨w, List.mem_cons_self _ _,
            processVehicle_ops_chars fs hav now w (var i) e hpv op hop⟩
        · obtain ⟨w', hw', hc⟩ := ih (i + 1) e he' op hop
          exact ⟨w', List.mem_cons_of_mem _ hw', hc⟩

/-- A successful shipment-map lookup returns a fetched shipment whose
`vehicle_id` is the queried vehicle id. -/
theorem shipmentFor_eq_some (ships : List Shipment) (vid : String) (s : Shipment)
    (h : shipmentFor ships vid = some s) :
    s ∈ ships ∧ s.vehicle_id = some vid := by
  unfold shipmentFor at h
  have hmem := List.mem_of_mem_getLast? h
  obtain ⟨h1, h2⟩ := List.mem_filter.mp hmem
  refine ⟨h1, ?_⟩
  simp only [Bool.and_eq_true, beq_iff_eq] at h2
  exact h2.2

/-- A write that does not target a shipment's row leaves that row in the
store. -/
theorem applyOp_shipment_mem (st : Store) (op : WriteOp) (s : Shipment)
    (hs : s ∈ st.shipments) (h : opShipmentTarget op ≠ some s.id) :
    s ∈ (applyOp st op).shipments := by
  cases op with
  | shipmentDelivered sid t =>
      simp only [applyOp]
      refine List.mem_map.mpr ⟨s, hs, ?_⟩
      have hne : ¬s.id = sid := fun hh => h (by simp [opShipmentTarget, hh])
      simp [hne]
  | driverIdle did => exact hs
  | vehicleArrive vid lat lng t => exact hs
  | vehicleMove vid lat lng idx eta t => exact hs

/-- Folding writes that never target a shipment's row keeps the row. -/
theorem foldl_applyOp_shipment_mem (ops : List WriteOp) (st : Store) (s : Shipment)
    (hs : s ∈ st.shipments) (h : ∀ op ∈ ops, opShipmentTarget op ≠ some s.id) :
    s ∈ (ops.foldl applyOp st).shipments := by
  induction ops generalizing st with
  | nil => exact hs
  | cons o os ih =>
      exact ih (applyOp st o)
        (applyOp_shipment_mem st o s hs (h o (List.mem_cons_self _ _)))
        (fun op hop => h op (List.mem_cons_of_mem _ hop))

/-- Applying update entries none of whose writes target a shipment's row
keeps the row. -/
theorem applyEntries_shipment_mem (es : List UpdateEntry) (st : Store) (s : Shipment)
    (hs : s ∈ st.shipments)
    (h : ∀ e ∈ es, ∀ op ∈ e.ops, opShipmentTarget op ≠ some s.id) :
    s ∈ (applyEntries st es).shipments := by
  induction es generalizing st with
  | nil => exact hs
  | cons e rest ih =>
      exact ih (applyEntry st e)
        (foldl_applyOp_shipment_mem e.ops st s hs (h e (List.mem_cons_self _ _)))
        (fun e' he' => h e' (List.mem_cons_of_mem _ he'))

/-- A write that does not target a driver's row leaves that row in the
store. -/
theorem applyOp_driver_mem (st : Store) (op : WriteOp) (dr : Driver)
    (hd : dr ∈ st.drivers) (h : opDriverTarget op ≠ some dr.id) :
    dr ∈ (applyOp st op).drivers := by
  cases op with
  | shipmentDelivered sid t => exact hd
  | driverIdle did =>
      simp only [applyOp]
      refine List.mem_map.mpr ⟨dr, hd, ?_⟩
      have hne : ¬dr.id = did := fun hh => h (by simp [opDriverTarget, hh])
      simp [hne]
  | vehicleArrive vid lat lng t => exact hd
  | vehicleMove vid lat lng idx eta t => exact hd

/-- Folding writes that never target a driver's row keeps the row. -/
theorem foldl_applyOp_driver_mem (ops : List WriteOp) (st : Store) (dr : Driver)
    (hd : dr ∈ st.drivers) (h : ∀ op ∈ ops, opDriverTarget op ≠ some dr.id) :
    dr ∈ (ops.foldl applyOp st).drivers := by
  induction ops generalizing st with
  | nil => exact hd
  | cons o os ih =>
      exact ih (applyOp st o)
        (applyOp_driver_mem st o dr hd (h o (List.mem_cons_self _ _)))
        (fun op hop => h op (List.mem_cons_of_mem _ hop))

/-- Applying update entries none of whose writes target a driver's row
keeps the row. -/
theorem applyEntries_driver_mem (es : List UpdateEntry) (st : Store) (dr : Driver)
    (hd : dr ∈ st.drivers)
    (h : ∀ e ∈ es, ∀ op ∈ e.ops, opDriverTarget op ≠ some dr.id) :
    dr ∈ (applyEntries st es).drivers := by
  induction es generalizing st with
  | nil => exact hd
  | cons e rest ih =>
      exact ih (applyEntry st e)
        (foldl_applyOp_driver_mem e.ops st dr hd (h e (List.mem_cons_self _ _)))
        (fun e' he' => h e' (List.mem_cons_of_mem _ he'))

/-- Write characterization of the loop with the tick's actual shipment
lookup: every shipment or driver write stems from a fetched shipment
referencing the processed vehicle. -/
theorem processList_shipmentFor_chars (ships : List Shipment) (hav : ℚ → ℚ → ℚ → ℚ → ℚ)
    (now : ℚ) (var : ℕ → ℚ) :
    ∀ (vs : List Vehicle) (i : ℕ) (e : UpdateEntry),
      e ∈ processList (shipmentFor ships) hav now var i vs → ∀ op ∈ e.ops,
      ∃ w ∈ vs,
        (∃ s, s ∈ ships ∧ s.vehicle_id = some w.id ∧
          (op = WriteOp.shipmentDelivered s.id now ∨
           ∃ d, s.driver_id = some d ∧ op = WriteOp.driverIdle d)) ∨
        (∃ lat lng, op = WriteOp.vehicleArrive w.id lat lng now) ∨
        (∃ lat lng i2 et, op = WriteOp.vehicleMove w.id lat lng i2 et now) := by
  intro vs i e he op hop
  obtain ⟨w, hw, hc⟩ := processList_ops_chars (shipmentFor ships) hav now var vs i e he op hop
  refine ⟨w, hw, ?_⟩
  rcases hc with ⟨s, hfs, hopeq⟩ | ⟨s, d, hfs, hd, hopeq⟩ | hrest | hrest
  · obtain ⟨hs1, hs2⟩ := shipmentFor_eq_some ships w.id s hfs
    exact Or.inl ⟨s, hs1, hs2, Or.inl hopeq⟩
  · obtain ⟨hs1, hs2⟩ := shipmentFor_eq_some ships w.id s hfs
    exact Or.inl ⟨s, hs1, hs2, Or.inr ⟨d, hd, hopeq⟩⟩
  · exact Or.inr (Or.inl hrest)
  · exact Or.inr (Or.inr hrest)

/-- Claim C4: live-mode exclusion — for a vehicle with tracking_mode
`live` (row ids being unique), a tick never writes the vehicle: no write
targets its row and the row survives the tick's writes completely
unchanged, regardless of its status, route, or the tick's load errors.
Nor does the tick write the live vehicle's shipment or driver on its
behalf: no write targets a shipment referencing the vehicle (shipment ids
being unique), and none targets such a shipment's driver (the driver, per
the data model, being referenced by no other in-transit shipment);
shipment and driver rows likewise survive unchanged. -/
theorem C4_live_mode_untouched (store : Store) (vehErr : Option String) (shipErr : Bool)
    (hav : ℚ → ℚ → ℚ → ℚ → ℚ) (var : ℕ → ℚ) (now : ℚ) (v : Vehicle)
    (hmem : v ∈ store.vehicles) (hlive : v.tracking_mode = some "live")
    (hids : (store.vehicles.map Vehicle.id).Nodup) :
    (∀ e ∈ (runTick store vehErr shipErr hav var now).entries,
        ∀ op ∈ e.ops, opVehicleTarget op ≠ some v.id) ∧
    v ∈ (applyEntries store (runTick store vehErr shipErr hav var now).entries).vehicles ∧
    ((store.shipments.map Shipment.id).Nodup →
      ∀ s ∈ store.shipments, s.vehicle_id = some v.id →
        (∀ e ∈ (runTick store vehErr shipErr hav var now).entries,
            ∀ op ∈ e.ops, opShipmentTarget op ≠ some s.id) ∧
        s ∈ (applyEntries store (runTick store vehErr shipErr hav var now).entries).shipments) ∧
    (∀ s ∈ store.shipments, s.vehicle_id = some v.id → ∀ d, s.driver_id = some d →
      (∀ s' ∈ store.shipments, s'.status = "in_transit" → s'.driver_id = some d →
          s'.vehicle_id = some v.id) →
        (∀ e ∈ (runTick store vehErr shipErr hav var now).entries,
            ∀ op ∈ e.ops, opDriverTarget op ≠ some d) ∧
        ∀ dr ∈ store.drivers, dr.id = d →
          dr ∈ (applyEntries store (runTick store vehErr shipErr hav var now).entries).drivers) := by
  have hnotv : ∀ w, w ∈ (store.vehicles.filter (fun u => u.status == "in_use")).filter
      simulatedFilter → w.id ≠ v.id := by
    intro w hw hwid
    have hw1 : w ∈ store.vehicles := (List.mem_filter.mp (List.mem_filter.mp hw).1).1
    have hsim := (List.mem_filter.mp hw).2
    have hwv : w = v := List.inj_on_of_nodup_map hids hw1 hmem hwid
    subst hwv
    simp [simulatedFilter, jsTruthyStr, hlive] at hsim
  have prov : ∀ e ∈ (runTick store vehErr shipErr hav var now).entries, ∀ op ∈ e.ops,
      ∃ w, w ∈ store.vehicles ∧ w.id ≠ v.id ∧
        ((∃ s, s ∈ store.shipments ∧ (s.status == "in_transit") = true ∧
            s.vehicle_id = some w.id ∧
            (op = WriteOp.shipmentDelivered s.id now ∨
             ∃ d, s.driver_id = some d ∧ op = WriteOp.driverIdle d)) ∨
         (∃ lat lng, op = WriteOp.vehicleArrive w.id lat lng now) ∨
         (∃ lat lng i2 et, op = WriteOp.vehicleMove w.id lat lng i2 et now)) := by
    intro e he op hop
    rcases vehErr with _ | msg
    · simp only [runTick] at he
      repeat' split at he
      all_goals try exact absurd he (List.not_mem_nil e)
      all_goals
        obtain ⟨w, hwVS, hc⟩ :=
          processList_shipmentFor_chars _ hav now var _ 0 e he op hop
      all_goals
        refine ⟨w, (List.mem_filter.mp (List.mem_filter.mp hwVS).1).1, hnotv w hwVS, ?_⟩
      all_goals
        rcases hc with ⟨s, hsS, hsvid, hops⟩ | hrest
      all_goals first
        | exact Or.inr hrest
        | exact absurd hsS (List.not_mem_nil s)
        | (obtain ⟨hs1, hs2⟩ := List.mem_filter.mp hsS
           rw [Bool.and_eq_true] at hs2
           exact Or.inl ⟨s, hs1, hs2.1, hsvid, hops⟩)
    · simp [runTick] at he
  have key : ∀ e ∈ (runTick store vehErr shipErr hav var now).entries,
      ∀ op ∈ e.ops, opVehicleTarget op ≠ some v.id := by
    intro e he op hop hu
    obtain ⟨w, hwmem, hwne, hc⟩ := prov e he op hop
    rcases hc with ⟨s, _, _, _, hops | ⟨d, _, hops⟩⟩ | ⟨lat, lng, hops⟩ |
        ⟨lat, lng, i2, et, hops⟩
    · subst hops; simp [opVehicleTarget] at hu
    · subst hops; simp [opVehicleTarget] at hu
    · subst hops
      simp only [opVehicleTarget, Option.some.injEq] at hu
      exact hwne hu
    · subst hops
      simp only [opVehicleTarget, Option.some.injEq] at hu
      exact hwne hu
  refine ⟨key, applyEntries_vehicle_mem _ _ _ hmem key, ?_, ?_⟩
  · intro hsids s hsmem hsvid
    have hstgt : ∀ e ∈ (runTick store vehErr shipErr hav var now).entries,
        ∀ op ∈ e.ops, opShipmentTarget op ≠ some s.id := by
      intro e he op hop htgt
      obtain ⟨w, hwmem, hwne, hc⟩ := prov e he op hop
      rcases hc with ⟨s', hs'1, hs'stat, hs'vid, hops | ⟨d, hd, hops⟩⟩ | ⟨lat, lng, hops⟩ |
          ⟨lat, lng, i2, et, hops⟩
      · subst hops
        simp only [opShipmentTarget, Option.some.injEq] at htgt
        have hss : s' = s := List.inj_on_of_nodup_map hsids hs'1 hsmem htgt
        subst hss
        rw [hsvid] at hs'vid
        exact hwne (Option.some.inj hs'vid).symm
      · subst hops; simp [opShipmentTarget] at htgt
      · subst hops; simp [opShipmentTarget] at htgt
      · subst hops; simp [opShipmentTarget] at htgt
    exact ⟨hstgt, applyEntries_shipment_mem _ _ _ hsmem hstgt⟩
  · intro s hsmem hsvid d hdid hexcl
    have hdtgt : ∀ e ∈ (runTick store vehErr shipErr hav var now).entries,
        ∀ op ∈ e.ops, opDriverTarget op ≠ some d := by
      intro e he op hop htgt
      obtain ⟨w, hwmem, hwne, hc⟩ := prov e he op hop
      rcases hc with ⟨s', hs'1, hs'stat, hs'vid, hops | ⟨d', hd', hops⟩⟩ | ⟨lat, lng, hops⟩ |
          ⟨lat, lng, i2, et, hops⟩
      · subst hops; simp [opDriverTarget] at htgt
      · subst hops
        simp only [opDriverTarget, Option.some.injEq] at htgt
        subst htgt
        have hveq := hexcl s' hs'1 (by simpa using hs'stat) hd'
        rw [hs'vid] at hveq
        exact hwne (Option.some.inj hveq)
      · subst hops; simp [opDriverTarget] at htgt
      · subst hops; simp [opDriverTarget] at htgt
    refine ⟨hdtgt, ?_⟩
    intro dr hdr hdrid
    refine applyEntries_driver_mem _ _ _ hdr ?_
    intro e he op hop
    rw [hdrid]
    exact hdtgt e he op hop

/-- Witness for C4 at the concrete C4 scenario's live vehicle. -/
theorem C4_live_mode_untouched_witness :
    (∀ e ∈ (runTick c4Store none false hav0 var1 0).entries,
        ∀ op ∈ e.ops, opVehicleTarget op ≠ some "v1") ∧
    (⟨"v1", "in_use", some "live", some 0, some 0,
        some (RouteVal.obj ⟨some [(0, 0), (0, 1), (0, 2)], some 30, none⟩),
        some 0, none, none⟩ : Vehicle) ∈
      (applyEntries c4Store (runTick c4Store none false hav0 var1 0).entries).vehicles ∧
    ((c4Store.shipments.map Shipment.id).Nodup →
      ∀ s ∈ c4Store.shipments, s.vehicle_id = some "v1" →
        (∀ e ∈ (runTick c4Store none false hav0 var1 0).entries,
            ∀ op ∈ e.ops, opShipmentTarget op ≠ some s.id) ∧
        s ∈ (applyEntries c4Store (runTick c4Store none false hav0 var1 0).entries).shipments) ∧
    (∀ s ∈ c4Store.shipments, s.vehicle_id = some "v1" → ∀ d, s.driver_id = some d →
      (∀ s' ∈ c4Store.shipments, s'.status = "in_transit" → s'.driver_id = some d →
          s'.vehicle_id = some "v1") →
        (∀ e ∈ (runTick c4Store none false hav0 var1 0).entries,
            ∀ op ∈ e.ops, opDriverTarget op ≠ some d) ∧
        ∀ dr ∈ c4Store.drivers, dr.id = d →
          dr ∈ (applyEntries c4Store (runTick c4Store none false hav0 var1 0).entries).drivers) :=
  C4_live_mode_untouched c4Store none false hav0 var1 0
    ⟨"v1", "in_use", some "live", some 0, some 0,
      some (RouteVal.obj ⟨some [(0, 0), (0, 1), (0, 2)], some 30, none⟩),
      some 0, none, none⟩
    (by simp [c4Store]) rfl (by simp [c4Store])

/-- After one reconciliation, every vehicle still reported `in_use` has an
in-transit shipment referencing it. -/
theorem reconcileApply_inuse_active (st : Store) (w : Vehicle)
    (hw : w ∈ (reconcileApply st).vehicles) (hstatus : (w.status == "in_use") = true) :
    (truthyIds ((st.shipments.filter (fun s => s.status == "in_transit")).map
      Shipment.vehicle_id)).contains w.id = true := by
  simp only [reconcileApply] at hw
  obtain ⟨x, hx, rfl⟩ := List.mem_map.mp hw
  by_cases hfix : x.id ∈ (reconcileVehiclesToFix st).map Vehicle.id
  · have hc : ((reconcileVehiclesToFix st).map Vehicle.id).contains x.id = true :=
      List.elem_eq_true_of_mem hfix
    simp only [hc, if_true] at hstatus ⊢
    simp at hstatus
  · have hc : ((reconcileVehiclesToFix st).map Vehicle.id).contains x.id = false := by
      cases hcc : ((reconcileVehiclesToFix st).map Vehicle.id).contains x.id with
      | true => exact absurd (List.mem_of_elem_eq_true hcc) hfix
      | false => rfl
    simp only [hc, Bool.false_eq_true, if_false] at hstatus ⊢
    cases hAc : (truthyIds ((st.shipments.filter (fun s => s.status == "in_transit")).map
        Shipment.vehicle_id)).contains x.id with
    | true => rfl
    | false =>
        exfalso
        have hxfix : x ∈ reconcileVehiclesToFix st := by
          simp only [reconcileVehiclesToFix]
          refine List.mem_filter.mpr ⟨List.mem_filter.mpr ⟨hx, hstatus⟩, ?_⟩
          simp only [Bool.not_eq_true']
          exact hAc
        exact hfix (List.mem_map_of_mem _ hxfix)

/-- After one reconciliation, every driver still reported `working` has an
in-transit shipment referencing it. -/
theorem reconcileApply_working_active (st : Store) (w : Driver)
    (hw : w ∈ (reconcileApply st).drivers) (hstatus : (w.status == "working") = true) :
    (truthyIds ((st.shipments.filter (fun s => s.status == "in_transit")).map
      Shipment.driver_id)).contains w.id = true := by
  simp only [reconcileApply] at hw
  obtain ⟨x, hx, rfl⟩ := List.mem_map.mp hw
  by_cases hfix : x.id ∈ (reconcileDriversToFix st).map Driver.id
  · have hc : ((reconcileDriversToFix st).map Driver.id).contains x.id = true :=
      List.elem_eq_true_of_mem hfix
    simp only [hc, if_true] at hstatus ⊢
    simp at hstatus
  · have hc : ((reconcileDriversToFix st).map Driver.id).contains x.id = false := by
      cases hcc : ((reconcileDriversToFix st).map Driver.id).contains x.id with
      | true => exact absurd (List.mem_of_elem_eq_true hcc) hfix
      | false => rfl
    simp only [hc, Bool.false_eq_true, if_false] at hstatus ⊢
    cases hAc : (truthyIds ((st.shipments.filter (fun s => s.status == "in_transit")).map
        Shipment.driver_id)).contains x.id with
    | true => rfl
    | false =>
        exfalso
        have hxfix : x ∈ reconcileDriversToFix st := by
          simp only [reconcileDriversToFix]
          refine List.mem_filter.mpr ⟨List.mem_filter.mpr ⟨hx, hstatus⟩, ?_⟩
          simp only [Bool.not_eq_true']
          exact hAc
        exact hfix (List.mem_map_of_mem _ hxfix)

/-- Claim C9: idempotent reconciliation — for every store state, running
the reconciler again on the store produced by a fully applied first run
(with no intervening change) fixes zero vehicles and zero drivers. -/
theorem C9_reconcile_idempotent (st : Store) :
    reconcileCounts (reconcileApply st) = (0, 0) := by
  have hveh : reconcileVehiclesToFix (reconcileApply st) = [] := by
    conv_lhs => rw [reconcileVehiclesToFix]
    rw [List.filter_eq_nil_iff]
    intro w hw
    obtain ⟨hw1, hp⟩ := List.mem_filter.mp hw
    have hkey := reconcileApply_inuse_active st w hw1 hp
    simp only [reconcileApply, Bool.not_eq_true']
    simp
    exact List.mem_of_elem_eq_true hkey
  have hdrv : reconcileDriversToFix (reconcileApply st) = [] := by
    conv_lhs => rw [reconcileDriversToFix]
    rw [List.filter_eq_nil_iff]
    intro w hw
    obtain ⟨hw1, hp⟩ := List.mem_filter.mp hw
    have hkey := reconcileApply_working_active st w hw1 hp
    simp only [reconcileApply, Bool.not_eq_true']
    simp
    exact List.mem_of_elem_eq_true hkey
  simp [reconcileCounts, hveh, hdrv]
